import Mathlib

/-!
Shallow embedding of the spatial world engine (src/unnamed/part_000, the
World class, together with the WorldObject base of src/unnamed/part_002 and
EventCenter.objectIntersect of src/server/app/event.center.ts).

Modelling conventions:
- TypeScript exceptions become Except.error values; every operation returns
  the world state it left behind together with the outcome, because a thrown
  exception in the original leaves all mutations performed so far in place.
- The nested-array cell buffer is a total function from row and column to an
  optional occupant id; the constructor nulls all in-bounds cells, so the
  all-none function is the initial buffer.
- The registry Map is an association list with JavaScript Map semantics:
  set replaces the first matching key in place, insertion order is kept.
- The notification sink (gameSession.eventCenter.objectIntersect) is a list
  of delivered events on the world state; delivery happens only when a game
  session was attached at init, mirroring the optional-chaining call.
-/

/-- World object ids are strings in the source. -/
abbrev WorldObjectID := String

/-- The three occupancy layers: UNDERGROUND = 0, GROUND = 1, OVERGROUND = 2. -/
abbrev WorldObjectLayer := Nat

/-- WorldObjectLayerCount from the source. -/
def WorldObjectLayerCount : Nat := 3

/-- A 2-D coordinate (model/geo Coordinate). -/
structure Coordinate where
  x : Int
  y : Int
deriving DecidableEq, Repr

/-- A 2-D size (model/geo Size). -/
structure Size where
  width : Int
  height : Int
deriving DecidableEq, Repr

/-- The state of a WorldObject that the grid reads and writes:
identity, layer, stored position, size and the initialization flag. -/
structure WorldObject where
  id : WorldObjectID
  layer : WorldObjectLayer
  position : Coordinate
  size : Size
  isInitialized : Bool
deriving DecidableEq, Repr

/-- Errors thrown by the world code.  overlapping models the
ErrorOverlappingObject class carrying both identities; the others model the
plain Error throws with their messages. -/
inductive WorldError where
  | notInitialized
  | overlapping (objectID existingObjectID : WorldObjectID)
  | outOfBounds (x y : Int)
  | invalidRestructure
  | objectNotInitialized (id : WorldObjectID)
deriving DecidableEq, Repr

deriving instance DecidableEq for Except

/-- An intersect notification delivered to the event center:
initiator id together with the intersected ids. -/
abbrev Notification := WorldObjectID × List WorldObjectID

/-- The World state: dimensions, initialization flag, whether a game session
(and hence the notification sink) is attached, the cell buffer, the object
registry and the list of notifications delivered so far. -/
structure World where
  id : String
  width : Int
  height : Int
  isInitialized : Bool
  hasSession : Bool
  map : Int → Int → Option WorldObjectID
  objects : List (WorldObjectID × WorldObject)
  notifications : List Notification

/-- Point update of the cell buffer. -/
def mapWrite (m : Int → Int → Option WorldObjectID) (r c : Int)
    (v : Option WorldObjectID) : Int → Int → Option WorldObjectID :=
  fun r' c' => if r' = r ∧ c' = c then v else m r' c'

/-- Registry lookup (Map.get): the value of the first entry with this key. -/
def getObj (l : List (WorldObjectID × WorldObject)) (oid : WorldObjectID) :
    Option WorldObject :=
  match l with
  | [] => none
  | (k, v) :: rest => if k = oid then some v else getObj rest oid

/-- Registry write (Map.set): replace the first entry with this key,
keeping insertion order, or append a fresh entry. -/
def setObj (l : List (WorldObjectID × WorldObject)) (oid : WorldObjectID)
    (o : WorldObject) : List (WorldObjectID × WorldObject) :=
  match l with
  | [] => [(oid, o)]
  | (k, v) :: rest =>
    if k = oid then (k, o) :: rest else (k, v) :: setObj rest oid o

/-- Registry delete (Map.delete): remove the first entry with this key. -/
def delObj (l : List (WorldObjectID × WorldObject)) (oid : WorldObjectID) :
    List (WorldObjectID × WorldObject) :=
  match l with
  | [] => []
  | (k, v) :: rest =>
    if k = oid then rest else (k, v) :: delObj rest oid

/-- WorldObject.init: a no-op if already initialized, otherwise sets the
initialization flag (context binding carries no further grid-visible state). -/
def WorldObject.initObj (o : WorldObject) : WorldObject :=
  if o.isInitialized then o else { o with isInitialized := true }

/-- WorldObject.placed: requires the object to be initialized (throws
otherwise) and updates the stored position. -/
def WorldObject.placed (o : WorldObject) (p : Coordinate) :
    Except WorldError WorldObject :=
  if o.isInitialized then .ok { o with position := p }
  else .error (.objectNotInitialized o.id)

/-- The integers from a (inclusive) to b (exclusive), in ascending order:
the values taken by a TypeScript loop for (i = a; i < b; i++). -/
def intRange (a b : Int) : List Int :=
  (List.range (b - a).toNat).map (fun (i : Nat) => a + (i : Int))

/-- The cells visited by the nested loops
for (x = xa; x < xb; x++) for (y = ya; y < yb; y++), in visit order. -/
def cellsXY (xa xb ya yb : Int) : List Coordinate :=
  (intRange xa xb).flatMap (fun x => (intRange ya yb).map (fun y => ⟨x, y⟩))

/-- The footprint rectangle cells of a position and size, in the loop order
used by restructureMap's single-footprint branches. -/
def rectCells (p : Coordinate) (s : Size) : List Coordinate :=
  cellsXY p.x (p.x + s.width) p.y (p.y + s.height)

/-- EventCenter.objectIntersect: does nothing on an empty id list, otherwise
emits one intersect event. -/
def objectIntersect (ns : List Notification) (initiator : WorldObjectID)
    (ids : List WorldObjectID) : List Notification :=
  if ids.isEmpty then ns else ns ++ [(initiator, ids)]

/-- World.setMapCell.  Bounds-checks the position (throwing out-of-bounds),
writes null unconditionally, and for an id write first checks the occupant of
the slot at row y, column x + layer: any existing occupant throws
ErrorOverlappingObject naming the incoming id and the occupant.  When the
world is initialized the write happens inside a scan of the three layer
indices of the column: the own-layer slot is written and every non-null
occupant of the other slots is collected (in index order); the scan reads
columns x + index, index different from layer, which the own-layer write
cannot alias, so the collected values are those of the pre-write buffer.  A
non-empty collection is forwarded to gameSession?.eventCenter.objectIntersect,
which delivers one event when a session is attached. -/
def World.setMapCell (w : World) (pos : Coordinate) (layer : WorldObjectLayer)
    (oid : Option WorldObjectID) : World × Except WorldError Unit :=
  if pos.x < 0 ∨ pos.y < 0 ∨ w.width ≤ pos.x ∨ w.height ≤ pos.y then
    (w, .error (.outOfBounds pos.x pos.y))
  else
    match oid with
    | none =>
      ({ w with map := mapWrite w.map pos.y (pos.x + (layer : Int)) none },
        .ok ())
    | some i =>
      match w.map pos.y (pos.x + (layer : Int)) with
      | some existing => (w, .error (.overlapping i existing))
      | none =>
        if w.isInitialized = false then
          ({ w with map := mapWrite w.map pos.y (pos.x + (layer : Int)) (some i) },
            .ok ())
        else
          let m' := mapWrite w.map pos.y (pos.x + (layer : Int)) (some i)
          let intersected := (List.range WorldObjectLayerCount).filterMap
            (fun index =>
              if index = layer then none else w.map pos.y (pos.x + (index : Int)))
          let ns :=
            if intersected.isEmpty then w.notifications
            else if w.hasSession then
              objectIntersect w.notifications i intersected
            else w.notifications
          ({ w with map := m', notifications := ns }, .ok ())

/-- Sequential setMapCell over a list of cells, stopping at the first thrown
error with all earlier mutations kept (a thrown exception in the source
aborts the enclosing loops but leaves prior writes in place). -/
def World.setCells (w : World) (cells : List Coordinate)
    (layer : WorldObjectLayer) (oid : Option WorldObjectID) :
    World × Except WorldError Unit :=
  match cells with
  | [] => (w, .ok ())
  | c :: rest =>
    match w.setMapCell c layer oid with
    | (w', .ok _) => w'.setCells rest layer oid
    | (w', .error e) => (w', .error e)

/-- World.restructureMap.  Rejects the call when neither position is given;
bounds-checks a given new position and returns false without mutation when it
leaves the world; clears the old footprint when only the old position is
given; writes the new footprint when only the new position is given; and for
a move computes the overlap rectangle and processes the four clear strips of
the old footprint followed by the four write strips of the new footprint,
each strip in the source's loop order. -/
def World.restructureMap (w : World) (oid : WorldObjectID)
    (layer : WorldObjectLayer) (size : Size)
    (oldPosition newPosition : Option Coordinate) :
    World × Except WorldError Bool :=
  match oldPosition, newPosition with
  | none, none => (w, .error .invalidRestructure)
  | some oldP, none =>
    match w.setCells (rectCells oldP size) layer none with
    | (w', .ok _) => (w', .ok true)
    | (w', .error e) => (w', .error e)
  | none, some newP =>
    if newP.x < 0 ∨ newP.y < 0 ∨ w.width < newP.x + size.width ∨
        w.height < newP.y + size.height then
      (w, .ok false)
    else
      match w.setCells (rectCells newP size) layer (some oid) with
      | (w', .ok _) => (w', .ok true)
      | (w', .error e) => (w', .error e)
  | some oldP, some newP =>
    if newP.x < 0 ∨ newP.y < 0 ∨ w.width < newP.x + size.width ∨
        w.height < newP.y + size.height then
      (w, .ok false)
    else
      let overlapX := max oldP.x newP.x
      let overlapY := max oldP.y newP.y
      let overlapWidth := min (oldP.x + size.width) (newP.x + size.width) - overlapX
      let overlapHeight := min (oldP.y + size.height) (newP.y + size.height) - overlapY
      let clearCells :=
        cellsXY oldP.x overlapX oldP.y (oldP.y + size.height) ++
        cellsXY (overlapX + overlapWidth) (oldP.x + size.width) oldP.y (oldP.y + size.height) ++
        cellsXY overlapX (overlapX + overlapWidth) oldP.y overlapY ++
        cellsXY overlapX (overlapX + overlapWidth) (overlapY + overlapHeight) (oldP.y + size.height)
      let writeCells :=
        cellsXY newP.x overlapX newP.y (newP.y + size.height) ++
        cellsXY (overlapX + overlapWidth) (newP.x + size.width) newP.y (newP.y + size.height) ++
        cellsXY overlapX (overlapX + overlapWidth) newP.y overlapY ++
        cellsXY overlapX (overlapX + overlapWidth) (overlapY + overlapHeight) (newP.y + size.height)
      match w.setCells clearCells layer none with
      | (w1, .error e) => (w1, .error e)
      | (w1, .ok _) =>
        match w1.setCells writeCells layer (some oid) with
        | (w2, .ok _) => (w2, .ok true)
        | (w2, .error e) => (w2, .error e)

/-- World.lookupByLayer: batch read of the slots at row y, column x + layer;
no bounds defence. -/
def World.lookupByLayer (w : World) (layer : WorldObjectLayer)
    (positions : List Coordinate) : List (Option WorldObjectID) :=
  positions.map (fun p => w.map p.y (p.x + (layer : Int)))

/-- World.installObject: throws when the world is not initialized, returns
false when the identity already exists, otherwise registers the object and
lazily initializes it.  Does not place it. -/
def World.installObject (w : World) (o : WorldObject) :
    World × Except WorldError Bool :=
  if w.isInitialized = false then (w, .error .notInitialized)
  else if (getObj w.objects o.id).isSome then (w, .ok false)
  else ({ w with objects := setObj w.objects o.id o.initObj }, .ok true)

/-- World.uninstallObject: throws when the world is not initialized, returns
false for an unknown identity, otherwise removes the registry entry and
disposes the object.  Does not touch cell occupancy. -/
def World.uninstallObject (w : World) (oid : WorldObjectID) :
    World × Except WorldError Bool :=
  if w.isInitialized = false then (w, .error .notInitialized)
  else
    match getObj w.objects oid with
    | none => (w, .ok false)
    | some o => ({ w with objects := delObj w.objects o.id }, .ok true)

/-- World.placeObject: throws when the world is not initialized, returns
none for an unknown identity, resolves the target position (argument or the
object's stored position), re-sets the registry entry, then runs the new-only
restructure; on success notifies the object it was placed (which updates its
stored position) and returns the position. -/
def World.placeObject (w : World) (objectID : WorldObjectID)
    (position : Option Coordinate) :
    World × Except WorldError (Option Coordinate) :=
  if w.isInitialized = false then (w, .error .notInitialized)
  else
    match getObj w.objects objectID with
    | none => (w, .ok none)
    | some o =>
      let p := position.getD o.position
      let w1 := { w with objects := setObj w.objects o.id o }
      match w1.restructureMap o.id o.layer o.size none (some p) with
      | (w2, .error e) => (w2, .error e)
      | (w2, .ok false) => (w2, .ok none)
      | (w2, .ok true) =>
        match o.placed p with
        | .error e => (w2, .error e)
        | .ok o' => ({ w2 with objects := setObj w2.objects o.id o' }, .ok (some p))

/-- World.displaceObject: throws when the world is not initialized, returns
false for an unknown identity, otherwise runs the old-only restructure from
the object's stored position and notifies the object it was taken out (which
leaves its stored position unchanged). -/
def World.displaceObject (w : World) (objectID : WorldObjectID) :
    World × Except WorldError Bool :=
  if w.isInitialized = false then (w, .error .notInitialized)
  else
    match getObj w.objects objectID with
    | none => (w, .ok false)
    | some o =>
      match w.restructureMap o.id o.layer o.size (some o.position) none with
      | (w1, .error e) => (w1, .error e)
      | (w1, .ok false) => (w1, .ok false)
      | (w1, .ok true) => (w1, .ok true)

/-- World.moveObject: silently returns undefined when the world is not
initialized, returns none for an unknown identity, otherwise runs the
combined restructure from the object's stored position to the new position;
the object's placed callback is never invoked. -/
def World.moveObject (w : World) (objectID : WorldObjectID)
    (newPosition : Coordinate) :
    World × Except WorldError (Option Coordinate) :=
  if w.isInitialized = false then (w, .ok none)
  else
    match getObj w.objects objectID with
    | none => (w, .ok none)
    | some o =>
      match w.restructureMap o.id o.layer o.size (some o.position)
          (some newPosition) with
      | (w1, .error e) => (w1, .error e)
      | (w1, .ok false) => (w1, .ok none)
      | (w1, .ok true) => (w1, .ok (some newPosition))

/-- World.installAndPlaceObject: install then place; returns none without
placing when install fails. -/
def World.installAndPlaceObject (w : World) (o : WorldObject) :
    World × Except WorldError (Option Coordinate) :=
  match w.installObject o with
  | (w1, .error e) => (w1, .error e)
  | (w1, .ok false) => (w1, .ok none)
  | (w1, .ok true) => w1.placeObject o.id none

/-- World.uninstallAndDisplaceObject: uninstall then displace; returns false
without displacing when uninstall fails. -/
def World.uninstallAndDisplaceObject (w : World) (oid : WorldObjectID) :
    World × Except WorldError Bool :=
  match w.uninstallObject oid with
  | (w1, .error e) => (w1, .error e)
  | (w1, .ok false) => (w1, .ok false)
  | (w1, .ok true) => w1.displaceObject oid

/-- The World constructor: fixes id and extents, nulls the cell buffer and
registers the supplied objects in order (Map.set semantics), uninitialized
and without a session. -/
def mkWorld (wid : String) (width height : Int)
    (objects : List WorldObject) : World :=
  { id := wid, width := width, height := height,
    isInitialized := false, hasSession := false,
    map := fun _ _ => none,
    objects := objects.foldl (fun l o => setObj l o.id o) [],
    notifications := [] }

/-- Marks the registry entry of an id as initialized (World.initObject on a
registered object: the registry holds the mutated instance). -/
def World.initObjectIn (w : World) (oid : WorldObjectID) : World :=
  match getObj w.objects oid with
  | none => w
  | some o => { w with objects := setObj w.objects o.id o.initObj }

/-- The objects.forEach loop of World.init: initialize and place each
registered object in insertion order; a thrown placement error aborts the
remainder of the loop. -/
def World.initLoop (w : World) (ids : List WorldObjectID) :
    World × Except WorldError Unit :=
  match ids with
  | [] => (w, .ok ())
  | i :: rest =>
    let w1 := w.initObjectIn i
    match w1.placeObject i none with
    | (w2, .error e) => (w2, .error e)
    | (w2, .ok _) => w2.initLoop rest

/-- World.init: optionally binds the game session (and with it the
notification sink), marks the world initialized, then initializes and places
every registered object. -/
def World.init (w : World) (session : Bool) : World × Except WorldError Unit :=
  let w1 := { w with hasSession := w.hasSession || session,
                     isInitialized := true }
  w1.initLoop (w1.objects.map (fun e => e.1))

/-- A coordinate lies in the in-bounds region enforced by setMapCell. -/
def cellInBounds (w : World) (p : Coordinate) : Prop :=
  0 ≤ p.x ∧ 0 ≤ p.y ∧ p.x < w.width ∧ p.y < w.height

instance (w : World) (p : Coordinate) : Decidable (cellInBounds w p) := by
  unfold cellInBounds; infer_instance

/-- Two coordinates address different buffer slots on a common layer. -/
def slotNe (layer : WorldObjectLayer) (p q : Coordinate) : Prop :=
  ¬(p.y = q.y ∧ p.x + (layer : Int) = q.x + (layer : Int))

/-- The registry, width, height, initialization flag and session flag of a
world, bundled to state that an operation only touches the cell buffer and
the notification list. -/
def World.core (w : World) :
    List (WorldObjectID × WorldObject) × Int × Int × Bool × Bool :=
  (w.objects, w.width, w.height, w.isInitialized, w.hasSession)

/-- A 1 by 1 GROUND-layer object with identity a at the origin. -/
def objGroundA : WorldObject := ⟨"a", 1, ⟨0, 0⟩, ⟨1, 1⟩, false⟩

/-- A 1 by 1 GROUND-layer object with identity b at (0, 1). -/
def objGroundB : WorldObject := ⟨"b", 1, ⟨0, 1⟩, ⟨1, 1⟩, false⟩

/-- A 1 by 2 GROUND-layer object with identity a at the origin. -/
def objTallA : WorldObject := ⟨"a", 1, ⟨0, 0⟩, ⟨1, 2⟩, false⟩

/-- A 1 by 1 UNDERGROUND-layer object with identity a at (2, 0). -/
def objUnderA : WorldObject := ⟨"a", 0, ⟨2, 0⟩, ⟨1, 1⟩, false⟩

/-- A 1 by 1 UNDERGROUND-layer object with identity b at (1, 0). -/
def objUnderB : WorldObject := ⟨"b", 0, ⟨1, 0⟩, ⟨1, 1⟩, false⟩

/-- A 1 by 1 GROUND-layer object with identity a whose stored position
(9, 0) lies outside a 5 by 5 world. -/
def objFarA : WorldObject := ⟨"a", 1, ⟨9, 0⟩, ⟨1, 1⟩, false⟩

/-- An initialized, session-less, empty 10 by 10 world. -/
def baseWorld : World := ((mkWorld "w" 10 10 []).init false).1

/-- baseWorld with objGroundA installed and placed at the origin. -/
def placedA : World :=
  ((baseWorld.installObject objGroundA).1.placeObject "a" none).1

/-- baseWorld with objGroundB placed at (0, 1) and objTallA installed but
not yet placed: the 1 by 2 placement of a at (0, 0) will conflict at its
second cell only. -/
def conflictWorld : World :=
  ((((baseWorld.installObject objGroundB).1.placeObject "b" none).1).installObject
    objTallA).1

/-- baseWorld with objUnderA placed at (2, 0) on the UNDERGROUND layer. -/
def aliasWorld : World :=
  ((baseWorld.installObject objUnderA).1.placeObject "a" none).1

/-- An uninitialized 10 by 10 world holding objGroundA in its registry. -/
def rawWorld : World := mkWorld "w" 10 10 [objGroundA]

/-- An initialized 5 by 5 world with objFarA installed (never placed);
its stored footprint is out of bounds. -/
def oobWorld : World :=
  (((mkWorld "w" 5 5 []).init false).1.installObject objFarA).1

/-- An initialized, empty 10 by 10 world with a session attached. -/
def sessionWorld : World := ((mkWorld "w" 10 10 []).init true).1

/-- sessionWorld with objUnderB placed at (1, 0): its slot is row 0,
column 1, which the scan of a GROUND or OVERGROUND write at a nearby
column reads as another layer. -/
def notifyWorld : World :=
  ((sessionWorld.installObject objUnderB).1.placeObject "b" none).1

/-! ## Basic lemmas about the embedding -/

theorem mem_intRange {a l u : Int} : a ∈ intRange l u ↔ l ≤ a ∧ a < u := by
  unfold intRange
  simp only [List.mem_map, List.mem_range]
  constructor
  · rintro ⟨i, hi, rfl⟩
    omega
  · intro h
    exact ⟨(a - l).toNat, by omega, by omega⟩

theorem nodup_intRange (a b : Int) : (intRange a b).Nodup :=
  (List.nodup_range _).map (fun i j h => by omega)

theorem mem_cellsXY {p : Coordinate} {xa xb ya yb : Int} :
    p ∈ cellsXY xa xb ya yb ↔
      xa ≤ p.x ∧ p.x < xb ∧ ya ≤ p.y ∧ p.y < yb := by
  unfold cellsXY
  simp only [List.mem_flatMap, List.mem_map, mem_intRange]
  constructor
  · rintro ⟨x, hx, y, hy, rfl⟩
    exact ⟨hx.1, hx.2, hy.1, hy.2⟩
  · intro h
    exact ⟨p.x, ⟨h.1, h.2.1⟩, p.y, ⟨h.2.2.1, h.2.2.2⟩, rfl⟩

theorem nodup_cellsXY (xa xb ya yb : Int) : (cellsXY xa xb ya yb).Nodup := by
  unfold cellsXY
  rw [List.nodup_flatMap]
  constructor
  · intro x _
    exact (nodup_intRange ya yb).map (fun y1 y2 h => by
      cases h
      rfl)
  · refine (nodup_intRange xa xb).imp ?_
    intro x1 x2 hne p hp1 hp2
    simp only [List.mem_map] at hp1 hp2
    obtain ⟨y1, _, rfl⟩ := hp1
    obtain ⟨y2, _, h⟩ := hp2
    cases h
    exact hne rfl

theorem pairwise_slotNe_of_nodup {L : WorldObjectLayer} {l : List Coordinate}
    (h : l.Nodup) : l.Pairwise (slotNe L) := by
  refine h.imp ?_
  intro p q hpq hc
  rcases p with ⟨px, py⟩
  rcases q with ⟨qx, qy⟩
  obtain ⟨h1, h2⟩ := hc
  simp only at h1 h2
  exact hpq (by rw [show px = qx by omega, h1])

theorem getObj_setObj_self (l : List (WorldObjectID × WorldObject))
    (oid : WorldObjectID) (o : WorldObject) (h : getObj l oid = some o) :
    setObj l oid o = l := by
  induction l with
  | nil => simp [getObj] at h
  | cons e rest ih =>
    rcases e with ⟨k, v⟩
    unfold getObj at h
    unfold setObj
    by_cases hk : k = oid
    · rw [if_pos hk] at h ⊢
      cases h
      rfl
    · rw [if_neg hk] at h ⊢
      rw [ih h]

theorem setMapCell_core (w : World) (p : Coordinate) (L : WorldObjectLayer)
    (oid : Option WorldObjectID) : (w.setMapCell p L oid).1.core = w.core := by
  unfold World.setMapCell
  repeat' split
  all_goals rfl

theorem setCells_core (w : World) (cells : List Coordinate)
    (L : WorldObjectLayer) (oid : Option WorldObjectID) :
    (w.setCells cells L oid).1.core = w.core := by
  induction cells generalizing w with
  | nil => rfl
  | cons c rest ih =>
    unfold World.setCells
    rcases hsc : w.setMapCell c L oid with ⟨w', r⟩
    have hc := setMapCell_core w c L oid
    rw [hsc] at hc
    cases r with
    | ok u => exact (ih w').trans hc
    | error e => exact hc

theorem restructureMap_core (w : World) (oid : WorldObjectID)
    (L : WorldObjectLayer) (s : Size) (oldP newP : Option Coordinate) :
    (w.restructureMap oid L s oldP newP).1.core = w.core := by
  have hs : ∀ (w' : World) (cs : List Coordinate) (oid' : Option WorldObjectID)
      (r : World × Except WorldError Unit),
      w'.setCells cs L oid' = r → r.1.core = w'.core := by
    intro w' cs oid' r hr
    rw [← hr]
    exact setCells_core _ _ _ _
  rcases oldP with _ | op
  · rcases newP with _ | np
    · rfl
    · simp only [World.restructureMap]
      split
      · rfl
      · split
        next w' a heq => exact hs w _ _ _ heq
        next w' e heq => exact hs w _ _ _ heq
  · rcases newP with _ | np
    · simp only [World.restructureMap]
      split
      next w' a heq => exact hs w _ _ _ heq
      next w' e heq => exact hs w _ _ _ heq
    · simp only [World.restructureMap]
      split
      · rfl
      · split
        next w1 e heq => exact hs w _ _ _ heq
        next w1 a heq =>
          split
          next w2 a2 heq2 => exact (hs w1 _ _ _ heq2).trans (hs w _ _ _ heq)
          next w2 e2 heq2 => exact (hs w1 _ _ _ heq2).trans (hs w _ _ _ heq)

theorem setMapCell_clear (w : World) (p : Coordinate) (L : WorldObjectLayer)
    (hb : cellInBounds w p) :
    w.setMapCell p L none =
      ({ w with map := mapWrite w.map p.y (p.x + (L : Int)) none }, .ok ()) := by
  obtain ⟨h1, h2, h3, h4⟩ := hb
  unfold World.setMapCell
  rw [if_neg (by omega)]

theorem setMapCell_write (w : World) (p : Coordinate) (L : WorldObjectLayer)
    (i : WorldObjectID) (hb : cellInBounds w p)
    (he : w.map p.y (p.x + (L : Int)) = none) :
    ∃ ns, w.setMapCell p L (some i) =
      ({ w with map := mapWrite w.map p.y (p.x + (L : Int)) (some i),
                notifications := ns }, .ok ()) := by
  obtain ⟨h1, h2, h3, h4⟩ := hb
  unfold World.setMapCell
  rw [if_neg (by omega)]
  simp only [he]
  by_cases hini : w.isInitialized = false
  · rw [if_pos hini]
    exact ⟨w.notifications, rfl⟩
  · rw [if_neg hini]
    exact ⟨_, rfl⟩

theorem setMapCell_conflict (w : World) (p : Coordinate) (L : WorldObjectLayer)
    (i e : WorldObjectID) (hb : cellInBounds w p)
    (ho : w.map p.y (p.x + (L : Int)) = some e) :
    w.setMapCell p L (some i) = (w, .error (.overlapping i e)) := by
  obtain ⟨h1, h2, h3, h4⟩ := hb
  unfold World.setMapCell
  rw [if_neg (by omega)]
  simp only [ho]

theorem setCells_cons_ok (w w' : World) (c : Coordinate)
    (rest : List Coordinate) (L : WorldObjectLayer) (oid : Option WorldObjectID)
    (h : w.setMapCell c L oid = (w', .ok ())) :
    w.setCells (c :: rest) L oid = w'.setCells rest L oid := by
  conv_lhs => rw [World.setCells.eq_def]
  simp only []
  rw [h]

theorem setCells_cons_err (w w' : World) (c : Coordinate)
    (rest : List Coordinate) (L : WorldObjectLayer) (oid : Option WorldObjectID)
    (e : WorldError) (h : w.setMapCell c L oid = (w', .error e)) :
    w.setCells (c :: rest) L oid = (w', .error e) := by
  conv_lhs => rw [World.setCells.eq_def]
  simp only []
  rw [h]

theorem setCells_clear_char (w : World) (cells : List Coordinate)
    (L : WorldObjectLayer) (hin : ∀ p ∈ cells, cellInBounds w p) :
    (w.setCells cells L none).2 = .ok () ∧
    ∀ r c, (w.setCells cells L none).1.map r c =
      if ∃ p ∈ cells, p.y = r ∧ p.x + (L : Int) = c then none
      else w.map r c := by
  induction cells generalizing w with
  | nil =>
    refine ⟨rfl, ?_⟩
    intro r c
    simp [World.setCells]
  | cons cc rest ih =>
    have hb := hin cc (List.mem_cons_self cc rest)
    have hin' : ∀ p ∈ rest, cellInBounds w p :=
      fun p hp => hin p (List.mem_cons_of_mem _ hp)
    rw [setCells_cons_ok w _ cc rest L none (setMapCell_clear w cc L hb)]
    obtain ⟨ih1, ih2⟩ :=
      ih { w with map := mapWrite w.map cc.y (cc.x + (L : Int)) none } hin'
    refine ⟨ih1, ?_⟩
    intro r c
    rw [ih2 r c]
    by_cases hex : ∃ p ∈ rest, p.y = r ∧ p.x + (L : Int) = c
    · rw [if_pos hex]
      obtain ⟨p, hp, h1, h2⟩ := hex
      rw [if_pos ⟨p, List.mem_cons_of_mem _ hp, h1, h2⟩]
    · rw [if_neg hex]
      show mapWrite w.map cc.y (cc.x + (L : Int)) none r c = _
      unfold mapWrite
      by_cases hcc : r = cc.y ∧ c = cc.x + (L : Int)
      · rw [if_pos hcc,
          if_pos ⟨cc, List.mem_cons_self cc rest, hcc.1.symm, hcc.2.symm⟩]
      · rw [if_neg hcc, if_neg ?_]
        rintro ⟨p, hp, h1, h2⟩
        rcases List.mem_cons.mp hp with rfl | hp'
        · exact hcc ⟨h1.symm, h2.symm⟩
        · exact hex ⟨p, hp', h1, h2⟩

theorem setCells_write_char (w : World) (cells : List Coordinate)
    (L : WorldObjectLayer) (i : WorldObjectID)
    (hin : ∀ p ∈ cells, cellInBounds w p)
    (hempty : ∀ p ∈ cells, w.map p.y (p.x + (L : Int)) = none)
    (hnd : cells.Pairwise (slotNe L)) :
    (w.setCells cells L (some i)).2 = .ok () ∧
    ∀ r c, (w.setCells cells L (some i)).1.map r c =
      if ∃ p ∈ cells, p.y = r ∧ p.x + (L : Int) = c then some i
      else w.map r c := by
  induction cells generalizing w with
  | nil =>
    refine ⟨rfl, ?_⟩
    intro r c
    simp [World.setCells]
  | cons cc rest ih =>
    have hb := hin cc (List.mem_cons_self cc rest)
    obtain ⟨hnd1, hnd2⟩ := List.pairwise_cons.mp hnd
    obtain ⟨ns, hstep⟩ :=
      setMapCell_write w cc L i hb (hempty cc (List.mem_cons_self cc rest))
    rw [setCells_cons_ok w _ cc rest L (some i) hstep]
    have hin' : ∀ p ∈ rest,
        cellInBounds
          { w with map := mapWrite w.map cc.y (cc.x + (L : Int)) (some i),
                   notifications := ns } p :=
      fun p hp => hin p (List.mem_cons_of_mem _ hp)
    have hempty' : ∀ p ∈ rest,
        ({ w with map := mapWrite w.map cc.y (cc.x + (L : Int)) (some i),
                  notifications := ns } : World).map p.y (p.x + (L : Int)) =
          none := by
      intro p hp
      show mapWrite w.map cc.y (cc.x + (L : Int)) (some i) p.y (p.x + (L : Int))
        = none
      unfold mapWrite
      have hne : ¬(p.y = cc.y ∧ p.x + (L : Int) = cc.x + (L : Int)) := by
        rintro ⟨h1, h2⟩
        exact hnd1 p hp ⟨h1.symm, h2.symm⟩
      rw [if_neg hne]
      exact hempty p (List.mem_cons_of_mem _ hp)
    obtain ⟨ih1, ih2⟩ := ih _ hin' hempty' hnd2
    refine ⟨ih1, ?_⟩
    intro r c
    rw [ih2 r c]
    by_cases hex : ∃ p ∈ rest, p.y = r ∧ p.x + (L : Int) = c
    · rw [if_pos hex]
      obtain ⟨p, hp, h1, h2⟩ := hex
      rw [if_pos ⟨p, List.mem_cons_of_mem _ hp, h1, h2⟩]
    · rw [if_neg hex]
      show mapWrite w.map cc.y (cc.x + (L : Int)) (some i) r c = _
      unfold mapWrite
      by_cases hcc : r = cc.y ∧ c = cc.x + (L : Int)
      · rw [if_pos hcc,
          if_pos ⟨cc, List.mem_cons_self cc rest, hcc.1.symm, hcc.2.symm⟩]
      · rw [if_neg hcc, if_neg ?_]
        rintro ⟨p, hp, h1, h2⟩
        rcases List.mem_cons.mp hp with rfl | hp'
        · exact hcc ⟨h1.symm, h2.symm⟩
        · exact hex ⟨p, hp', h1, h2⟩

theorem setCells_conflict_char (w : World) (pre : List Coordinate)
    (c0 : Coordinate) (post : List Coordinate) (L : WorldObjectLayer)
    (i e : WorldObjectID)
    (hin : ∀ p ∈ pre, cellInBounds w p) (hin0 : cellInBounds w c0)
    (hempty : ∀ p ∈ pre, w.map p.y (p.x + (L : Int)) = none)
    (hocc : w.map c0.y (c0.x + (L : Int)) = some e)
    (hnd : (pre ++ [c0]).Pairwise (slotNe L)) :
    (w.setCells (pre ++ c0 :: post) L (some i)).2 =
      .error (.overlapping i e) ∧
    ∀ r c, (w.setCells (pre ++ c0 :: post) L (some i)).1.map r c =
      if ∃ p ∈ pre, p.y = r ∧ p.x + (L : Int) = c then some i
      else w.map r c := by
  induction pre generalizing w with
  | nil =>
    simp only [List.nil_append]
    rw [setCells_cons_err w w c0 post L (some i) _
      (setMapCell_conflict w c0 L i e hin0 hocc)]
    refine ⟨rfl, ?_⟩
    intro r c
    simp
  | cons cc pre ih =>
    simp only [List.cons_append] at hnd ⊢
    have hb := hin cc (List.mem_cons_self cc pre)
    obtain ⟨hnd1, hnd2⟩ := List.pairwise_cons.mp hnd
    obtain ⟨ns, hstep⟩ :=
      setMapCell_write w cc L i hb (hempty cc (List.mem_cons_self cc pre))
    rw [setCells_cons_ok w _ cc (pre ++ c0 :: post) L (some i) hstep]
    have hin' : ∀ p ∈ pre,
        cellInBounds
          { w with map := mapWrite w.map cc.y (cc.x + (L : Int)) (some i),
                   notifications := ns } p :=
      fun p hp => hin p (List.mem_cons_of_mem _ hp)
    have hin0' : cellInBounds
        { w with map := mapWrite w.map cc.y (cc.x + (L : Int)) (some i),
                 notifications := ns } c0 := hin0
    have hempty' : ∀ p ∈ pre,
        ({ w with map := mapWrite w.map cc.y (cc.x + (L : Int)) (some i),
                  notifications := ns } : World).map p.y (p.x + (L : Int)) =
          none := by
      intro p hp
      show mapWrite w.map cc.y (cc.x + (L : Int)) (some i) p.y (p.x + (L : Int))
        = none
      unfold mapWrite
      have hne : ¬(p.y = cc.y ∧ p.x + (L : Int) = cc.x + (L : Int)) := by
        rintro ⟨h1, h2⟩
        exact hnd1 p (List.mem_append_left _ hp) ⟨h1.symm, h2.symm⟩
      rw [if_neg hne]
      exact hempty p (List.mem_cons_of_mem _ hp)
    have hocc' : ({ w with
        map := mapWrite w.map cc.y (cc.x + (L : Int)) (some i),
        notifications := ns } : World).map c0.y (c0.x + (L : Int)) =
          some e := by
      show mapWrite w.map cc.y (cc.x + (L : Int)) (some i) c0.y
        (c0.x + (L : Int)) = some e
      unfold mapWrite
      have hne : ¬(c0.y = cc.y ∧ c0.x + (L : Int) = cc.x + (L : Int)) := by
        rintro ⟨h1, h2⟩
        exact hnd1 c0 (List.mem_append_right _ (List.mem_singleton_self c0))
          ⟨h1.symm, h2.symm⟩
      rw [if_neg hne]
      exact hocc
    obtain ⟨ih1, ih2⟩ := ih _ hin' hin0' hempty' hocc' hnd2
    refine ⟨ih1, ?_⟩
    intro r c
    rw [ih2 r c]
    by_cases hex : ∃ p ∈ pre, p.y = r ∧ p.x + (L : Int) = c
    · rw [if_pos hex]
      obtain ⟨p, hp, h1, h2⟩ := hex
      rw [if_pos ⟨p, List.mem_cons_of_mem _ hp, h1, h2⟩]
    · rw [if_neg hex]
      show mapWrite w.map cc.y (cc.x + (L : Int)) (some i) r c = _
      unfold mapWrite
      by_cases hcc : r = cc.y ∧ c = cc.x + (L : Int)
      · rw [if_pos hcc,
          if_pos ⟨cc, List.mem_cons_self cc pre, hcc.1.symm, hcc.2.symm⟩]
      · rw [if_neg hcc, if_neg ?_]
        rintro ⟨p, hp, h1, h2⟩
        rcases List.mem_cons.mp hp with rfl | hp'
        · exact hcc ⟨h1.symm, h2.symm⟩
        · exact hex ⟨p, hp', h1, h2⟩

theorem exists_first_conflict (w : World) (L : WorldObjectLayer)
    (cells : List Coordinate)
    (h : ∃ p ∈ cells, w.map p.y (p.x + (L : Int)) ≠ none) :
    ∃ pre c0 post e, cells = pre ++ c0 :: post ∧
      (∀ p ∈ pre, w.map p.y (p.x + (L : Int)) = none) ∧
      w.map c0.y (c0.x + (L : Int)) = some e := by
  induction cells with
  | nil => simp at h
  | cons cc rest ih =>
    by_cases hcc : w.map cc.y (cc.x + (L : Int)) = none
    · have h' : ∃ p ∈ rest, w.map p.y (p.x + (L : Int)) ≠ none := by
        obtain ⟨p, hp, hne⟩ := h
        rcases List.mem_cons.mp hp with rfl | hp'
        · exact absurd hcc hne
        · exact ⟨p, hp', hne⟩
      obtain ⟨pre, c0, post, e, heq, h1, h2⟩ := ih h'
      refine ⟨cc :: pre, c0, post, e, by rw [heq]; rfl, ?_, h2⟩
      intro p hp
      rcases List.mem_cons.mp hp with rfl | hp'
      · exact hcc
      · exact h1 p hp'
    · rcases hv : w.map cc.y (cc.x + (L : Int)) with _ | e
      · exact absurd hv hcc
      · exact ⟨[], cc, rest, e, rfl, by simp, hv⟩

theorem rectCells_pairwise_slotNe (p : Coordinate) (s : Size)
    (L : WorldObjectLayer) : (rectCells p s).Pairwise (slotNe L) :=
  pairwise_slotNe_of_nodup (nodup_cellsXY _ _ _ _)

theorem rectCells_inBounds (w : World) (p : Coordinate) (s : Size)
    (hb : ¬(p.x < 0 ∨ p.y < 0 ∨ w.width < p.x + s.width ∨
      w.height < p.y + s.height)) :
    ∀ q ∈ rectCells p s, cellInBounds w q := by
  intro q hq
  rw [rectCells, mem_cellsXY] at hq
  obtain ⟨h1, h2, h3, h4⟩ := hq
  push_neg at hb
  obtain ⟨g1, g2, g3, g4⟩ := hb
  exact ⟨by omega, by omega, by omega, by omega⟩

theorem pairwise_split_slotNe (L : WorldObjectLayer)
    (cells pre post : List Coordinate) (c0 : Coordinate)
    (h : cells.Pairwise (slotNe L)) (heq : cells = pre ++ c0 :: post) :
    (pre ++ [c0]).Pairwise (slotNe L) := by
  subst heq
  refine List.Pairwise.sublist ?_ h
  exact ((List.nil_sublist post).cons₂ c0).append_left pre

theorem placeObject_restructure (w : World) (o : WorldObject) (p : Coordinate)
    (hw : w.isInitialized = true)
    (ho : getObj w.objects o.id = some o)
    (hb : ¬(p.x < 0 ∨ p.y < 0 ∨ w.width < p.x + o.size.width ∨
      w.height < p.y + o.size.height)) :
    w.placeObject o.id (some p) =
      match w.setCells (rectCells p o.size) o.layer (some o.id) with
      | (w2, .error e) => (w2, .error e)
      | (w2, .ok _) =>
        match o.placed p with
        | .error e => (w2, .error e)
        | .ok o' =>
          ({ w2 with objects := setObj w2.objects o.id o' }, .ok (some p)) := by
  unfold World.placeObject
  rw [if_neg (by simp [hw])]
  rw [ho]
  simp only []
  simp only [Option.getD_some]
  rw [getObj_setObj_self w.objects o.id o ho]
  rw [show ({ w with objects := w.objects } : World) = w from rfl]
  unfold World.restructureMap
  simp only []
  rw [if_neg hb]
  rcases hsc : w.setCells (rectCells p o.size) o.layer (some o.id) with ⟨w2, r⟩
  cases r with
  | error e => rfl
  | ok u => cases u; rfl

/-- C2 (amended): when an initialized grid places a registered entity on an
in-bounds footprint and some footprint cell's slot is already occupied, the
call raises an Overlap condition naming the incoming identity and the
occupant of the first conflicting cell in traversal order, and the attempt is
not atomic: the footprint cells traversed before the conflicting cell retain
the incoming identity, every other slot of the buffer is unchanged, and the
registry is unchanged. -/
theorem placeObject_overlap_incomplete_write (w : World) (o : WorldObject)
    (p : Coordinate) (pre : List Coordinate) (c0 : Coordinate)
    (post : List Coordinate) (e : WorldObjectID)
    (hw : w.isInitialized = true)
    (ho : getObj w.objects o.id = some o)
    (hb : ¬(p.x < 0 ∨ p.y < 0 ∨ w.width < p.x + o.size.width ∨
      w.height < p.y + o.size.height))
    (hsplit : rectCells p o.size = pre ++ c0 :: post)
    (hempty : ∀ q ∈ pre, w.map q.y (q.x + (o.layer : Int)) = none)
    (hocc : w.map c0.y (c0.x + (o.layer : Int)) = some e) :
    (w.placeObject o.id (some p)).2 = .error (.overlapping o.id e) ∧
    (∀ r c, (w.placeObject o.id (some p)).1.map r c =
      if ∃ q ∈ pre, q.y = r ∧ q.x + (o.layer : Int) = c then some o.id
      else w.map r c) ∧
    (w.placeObject o.id (some p)).1.objects = w.objects := by
  have hinAll := rectCells_inBounds w p o.size hb
  have hin : ∀ q ∈ pre, cellInBounds w q := fun q hq =>
    hinAll q (hsplit ▸ List.mem_append_left _ hq)
  have hin0 : cellInBounds w c0 :=
    hinAll c0 (hsplit ▸ List.mem_append_right _ (List.mem_cons_self _ _))
  have hnd := pairwise_split_slotNe o.layer _ pre post c0
    (rectCells_pairwise_slotNe p o.size o.layer) hsplit
  have hchar := setCells_conflict_char w pre c0 post o.layer o.id e hin hin0
    hempty hocc hnd
  have hcore := setCells_core w (pre ++ c0 :: post) o.layer (some o.id)
  rw [placeObject_restructure w o p hw ho hb, hsplit]
  rcases hsc : w.setCells (pre ++ c0 :: post) o.layer (some o.id) with ⟨w2, r⟩
  rw [hsc] at hchar hcore
  obtain ⟨hc1, hc2⟩ := hchar
  change r = Except.error (.overlapping o.id e) at hc1
  subst hc1
  refine ⟨rfl, fun r c => hc2 r c, ?_⟩
  exact congrArg Prod.fst hcore

/-- C4 (amended): for an initialized grid, a registered initialized entity
and an in-bounds target footprint, placeEntity succeeds returning the target
position exactly when every footprint cell's slot (row y, column x + layer)
is empty, and it raises an overlap condition exactly when some footprint
slot is occupied by any identity, the entity's own identity included; a
raised condition always carries the incoming identity together with the
occupant of a footprint slot. -/
theorem placeObject_overlap_iff_slot_occupied (w : World) (o : WorldObject)
    (p : Coordinate)
    (hw : w.isInitialized = true)
    (ho : getObj w.objects o.id = some o)
    (hini : o.isInitialized = true)
    (hb : ¬(p.x < 0 ∨ p.y < 0 ∨ w.width < p.x + o.size.width ∨
      w.height < p.y + o.size.height)) :
    ((w.placeObject o.id (some p)).2 = .ok (some p) ↔
      ∀ q ∈ rectCells p o.size, w.map q.y (q.x + (o.layer : Int)) = none) ∧
    ((∃ a b, (w.placeObject o.id (some p)).2 = .error (.overlapping a b)) ↔
      ∃ q ∈ rectCells p o.size, w.map q.y (q.x + (o.layer : Int)) ≠ none) ∧
    (∀ a b, (w.placeObject o.id (some p)).2 = .error (.overlapping a b) →
      a = o.id ∧
      ∃ q ∈ rectCells p o.size, w.map q.y (q.x + (o.layer : Int)) = some b) := by
  rw [placeObject_restructure w o p hw ho hb]
  by_cases hall : ∀ q ∈ rectCells p o.size,
      w.map q.y (q.x + (o.layer : Int)) = none
  · have hchar := setCells_write_char w (rectCells p o.size) o.layer o.id
      (rectCells_inBounds w p o.size hb) hall
      (rectCells_pairwise_slotNe p o.size o.layer)
    rcases hsc : w.setCells (rectCells p o.size) o.layer (some o.id)
      with ⟨w2, r⟩
    rw [hsc] at hchar
    obtain ⟨hc1, _⟩ := hchar
    change r = Except.ok () at hc1
    subst hc1
    have hpl : o.placed p = .ok { o with position := p } := by
      simp [WorldObject.placed, hini]
    rw [hpl]
    refine ⟨⟨fun _ => hall, fun _ => rfl⟩, ?_, ?_⟩
    · constructor
      · rintro ⟨a, b, h⟩
        exact absurd h (by simp)
      · rintro ⟨q, hq, hne⟩
        exact absurd (hall q hq) hne
    · intro a b h
      exact absurd h (by simp)
  · have hex : ∃ q ∈ rectCells p o.size,
        w.map q.y (q.x + (o.layer : Int)) ≠ none := by
      push_neg at hall
      exact hall
    obtain ⟨pre, c0, post, e, heq, hempty, hocc⟩ :=
      exists_first_conflict w o.layer (rectCells p o.size) hex
    have hinAll := rectCells_inBounds w p o.size hb
    have hin : ∀ q ∈ pre, cellInBounds w q := fun q hq =>
      hinAll q (heq ▸ List.mem_append_left _ hq)
    have hin0 : cellInBounds w c0 :=
      hinAll c0 (heq ▸ List.mem_append_right _ (List.mem_cons_self _ _))
    have hnd := pairwise_split_slotNe o.layer _ pre post c0
      (rectCells_pairwise_slotNe p o.size o.layer) heq
    have hchar := setCells_conflict_char w pre c0 post o.layer o.id e hin hin0
      hempty hocc hnd
    have hc0mem : c0 ∈ pre ++ c0 :: post :=
      List.mem_append_right _ (List.mem_cons_self _ _)
    rw [heq]
    rcases hsc : w.setCells (pre ++ c0 :: post) o.layer (some o.id)
      with ⟨w2, r⟩
    rw [hsc] at hchar
    obtain ⟨hc1, _⟩ := hchar
    change r = Except.error (.overlapping o.id e) at hc1
    subst hc1
    refine ⟨⟨fun h => absurd h (by simp), fun h => absurd (h c0 hc0mem) ?_⟩,
      ⟨fun _ => ⟨c0, hc0mem, by rw [hocc]; simp⟩, fun _ => ⟨o.id, e, rfl⟩⟩,
      ?_⟩
    · rw [hocc]
      simp
    · intro a b h
      have h' : WorldError.overlapping o.id e = .overlapping a b := by
        injection h
      injection h' with h1 h2
      exact ⟨h1.symm, c0, hc0mem, h2 ▸ hocc⟩

/-- C10 (amended): on an initialized grid, displaceEntity on a registered
entity whose stored rectangle lies within bounds returns true and
unconditionally writes empty to every cell of that rectangle on the entity's
layer — no check that the entity was ever placed or that the cells hold its
identity — leaving every other slot unchanged; it returns false, with the
world unchanged, for an identity absent from the registry. -/
theorem displaceObject_unconditional_clear (w : World) (oid : WorldObjectID)
    (o : WorldObject)
    (hw : w.isInitialized = true)
    (ho : getObj w.objects oid = some o)
    (hin : ∀ q ∈ rectCells o.position o.size, cellInBounds w q) :
    (w.displaceObject oid).2 = .ok true ∧
    (∀ q ∈ rectCells o.position o.size,
      (w.displaceObject oid).1.map q.y (q.x + (o.layer : Int)) = none) ∧
    (∀ r c, (∀ q ∈ rectCells o.position o.size,
        ¬(q.y = r ∧ q.x + (o.layer : Int) = c)) →
      (w.displaceObject oid).1.map r c = w.map r c) ∧
    (∀ oid', getObj w.objects oid' = none →
      w.displaceObject oid' = (w, .ok false)) := by
  have hchar := setCells_clear_char w (rectCells o.position o.size) o.layer hin
  have habs : ∀ oid', getObj w.objects oid' = none →
      w.displaceObject oid' = (w, .ok false) := by
    intro oid' h
    unfold World.displaceObject
    rw [if_neg (by simp [hw]), h]
  unfold World.displaceObject
  rw [if_neg (by simp [hw]), ho]
  simp only []
  unfold World.restructureMap
  simp only []
  rcases hsc : w.setCells (rectCells o.position o.size) o.layer none
    with ⟨w1, r⟩
  rw [hsc] at hchar
  obtain ⟨hc1, hc2⟩ := hchar
  change r = Except.ok () at hc1
  subst hc1
  refine ⟨rfl, ?_, ?_, habs⟩
  · intro q hq
    rw [hc2 q.y (q.x + (o.layer : Int)), if_pos ⟨q, hq, rfl, rfl⟩]
  · intro r c hnone
    rw [hc2 r c, if_neg ?_]
    rintro ⟨q, hq, hh1, hh2⟩
    exact hnone q hq ⟨hh1, hh2⟩

/-- C6: on an initialized grid, moveEntity of a registered entity to a
destination whose footprint leaves the world extents returns none and leaves
the entire world state — cell buffer included — unchanged: the bounds check
rejects before any cell is written. -/
theorem moveObject_out_of_bounds_unchanged (w : World) (oid : WorldObjectID)
    (o : WorldObject) (p : Coordinate)
    (hw : w.isInitialized = true)
    (ho : getObj w.objects oid = some o)
    (hoob : p.x < 0 ∨ p.y < 0 ∨ w.width < p.x + o.size.width ∨
      w.height < p.y + o.size.height) :
    w.moveObject oid p = (w, .ok none) := by
  unfold World.moveObject
  rw [if_neg (by simp [hw]), ho]
  simp only []
  unfold World.restructureMap
  simp only []
  rw [if_pos hoob]

/-- C9: moveEntity never touches the registry — in particular it never
invokes the entity's placed callback, unlike placeEntity — so after any
moveObject call, successful or not, every registered entity keeps its stored
position, and a later operation that derives a footprint from the stored
position (displaceEntity or another moveEntity) uses the pre-move position. -/
theorem moveObject_preserves_registry (w : World) (oid : WorldObjectID)
    (p : Coordinate) :
    (w.moveObject oid p).1.objects = w.objects := by
  unfold World.moveObject
  split
  · rfl
  · split
    · rfl
    · rename_i o ho
      rcases hsc : w.restructureMap o.id o.layer o.size (some o.position)
        (some p) with ⟨w1, r⟩
      have hcore := restructureMap_core w o.id o.layer o.size
        (some o.position) (some p)
      rw [hsc] at hcore
      have hobj : w1.objects = w.objects := congrArg Prod.fst hcore
      cases r with
      | error e => exact hobj
      | ok b => cases b <;> exact hobj

/-- C5: for a single-cell identity write on an initialized grid with a
session (hence a reachable notification sink), targeting an in-bounds cell
whose own-layer slot is empty: the write succeeds; if some other layer of the
same column is occupied by a different identity, exactly one notification is
appended, carrying the written identity as initiator and exactly the
occupants of the other layers of that column as the others; if all other
layers at that column are empty, no notification is sent. -/
theorem setMapCell_cross_layer_notification (w : World) (p : Coordinate)
    (L : WorldObjectLayer) (i : WorldObjectID)
    (hw : w.isInitialized = true) (hs : w.hasSession = true)
    (hin : cellInBounds w p) (hL : L < WorldObjectLayerCount)
    (hempty : w.map p.y (p.x + (L : Int)) = none) :
    (w.setMapCell p L (some i)).2 = .ok () ∧
    ((∃ M, M < WorldObjectLayerCount ∧ M ≠ L ∧
        ∃ e, w.map p.y (p.x + (M : Int)) = some e ∧ e ≠ i) →
      ∃ os, (w.setMapCell p L (some i)).1.notifications =
          w.notifications ++ [(i, os)] ∧
        ∀ e, e ∈ os ↔ ∃ M, M < WorldObjectLayerCount ∧ M ≠ L ∧
          w.map p.y (p.x + (M : Int)) = some e) ∧
    ((∀ M, M < WorldObjectLayerCount → M ≠ L →
        w.map p.y (p.x + (M : Int)) = none) →
      (w.setMapCell p L (some i)).1.notifications = w.notifications) := by
  obtain ⟨h1, h2, h3, h4⟩ := hin
  unfold World.setMapCell
  rw [if_neg (by omega)]
  simp only [hempty]
  rw [if_neg (by simp [hw])]
  simp only []
  refine ⟨trivial, ?_, ?_⟩
  · rintro ⟨M, hM, hne, e, he, hei⟩
    have hmem : e ∈ (List.range WorldObjectLayerCount).filterMap
        (fun index => if index = L then none
          else w.map p.y (p.x + (index : Int))) :=
      List.mem_filterMap.mpr
        ⟨M, List.mem_range.mpr hM, by rw [if_neg hne]; exact he⟩
    rcases hI : (List.range WorldObjectLayerCount).filterMap
        (fun index => if index = L then none
          else w.map p.y (p.x + (index : Int))) with _ | ⟨hd, tl⟩
    · rw [hI] at hmem
      cases hmem
    · refine ⟨hd :: tl, ?_, ?_⟩
      · simp [objectIntersect, hs]
      · intro e'
        rw [← hI, List.mem_filterMap]
        constructor
        · rintro ⟨M', hM', hf⟩
          rw [List.mem_range] at hM'
          by_cases hML : M' = L
          · rw [if_pos hML] at hf
            cases hf
          · rw [if_neg hML] at hf
            exact ⟨M', hM', hML, hf⟩
        · rintro ⟨M', hM', hML, hf⟩
          exact ⟨M', List.mem_range.mpr hM', by rw [if_neg hML]; exact hf⟩
  · intro hAll
    have hI : (List.range WorldObjectLayerCount).filterMap
        (fun index => if index = L then none
          else w.map p.y (p.x + (index : Int))) = [] := by
      rw [List.filterMap_eq_nil_iff]
      intro a ha
      rw [List.mem_range] at ha
      by_cases haL : a = L
      · rw [if_pos haL]
      · rw [if_neg haL]
        exact hAll a ha haL
    rw [hI]
    rfl

/-- C1: concrete refutation evidence for the move diff.  In a 10 by 10 world
the 1 by 1 GROUND-layer entity a placed at the origin is moved to (2, 0):
the old footprint is the single cell (0, 0), the new footprint the single
cell (2, 0), their intersection is empty, and cell (1, 0) lies in neither —
yet after the move reading GROUND at (1, 0) returns a (before the move it is
empty): with an empty overlap rectangle the four-strip loops clear and then
rewrite the gap between the footprints, so a cell outside the union of the
footprints is written. -/
theorem moveObject_empty_overlap_strays :
    placedA.lookupByLayer 1 [⟨1, 0⟩] = [none] ∧
    (placedA.moveObject "a" ⟨2, 0⟩).2 = .ok (some ⟨2, 0⟩) ∧
    (placedA.moveObject "a" ⟨2, 0⟩).1.lookupByLayer 1 [⟨1, 0⟩] =
      [some "a"] := by
  decide

/-- C3: concrete refutation evidence for slot distinctness.  The entity a
sits at (2, 0) on the UNDERGROUND layer (layer 0) with a 1 by 1 footprint;
reading the GROUND layer (layer 1) at (1, 0) — a different layer, at a
coordinate outside the entity's footprint — returns a rather than empty,
because the buffer column is computed as x + layer rather than
x * layerCount + layer, so (2, 0, 0) and (1, 0, 1) share a slot. -/
theorem lookupByLayer_column_aliasing :
    getObj aliasWorld.objects "a" = some ⟨"a", 0, ⟨2, 0⟩, ⟨1, 1⟩, true⟩ ∧
    aliasWorld.lookupByLayer 1 [⟨1, 0⟩] = [some "a"] := by
  decide

/-- C7: concrete refutation evidence for fail-loudly.  On an uninitialized
world, moveObject returns the silent failure value (none, world unchanged)
instead of raising, while installObject, uninstallObject, placeObject and
displaceObject all raise the not-initialized error. -/
theorem moveObject_uninitialized_silent :
    rawWorld.isInitialized = false ∧
    rawWorld.moveObject "a" ⟨1, 1⟩ = (rawWorld, .ok none) ∧
    (rawWorld.placeObject "a" none).2 = .error .notInitialized ∧
    (rawWorld.installObject objGroundB).2 = .error .notInitialized ∧
    (rawWorld.uninstallObject "a").2 = .error .notInitialized ∧
    (rawWorld.displaceObject "a").2 = .error .notInitialized :=
  ⟨rfl, rfl, rfl, rfl, rfl, rfl⟩

/-- C8: concrete refutation evidence for the uninstall-and-displace
composition.  With a registered and placed at the origin, the call
uninstalls first and then fails to displace (the registry lookup inside the
displace step no longer finds the identity): it returns false, the identity
is gone from the registry, and the footprint cell still holds a. -/
theorem uninstallAndDisplace_never_displaces :
    getObj placedA.objects "a" = some ⟨"a", 1, ⟨0, 0⟩, ⟨1, 1⟩, true⟩ ∧
    (placedA.uninstallAndDisplaceObject "a").2 = .ok false ∧
    getObj (placedA.uninstallAndDisplaceObject "a").1.objects "a" = none ∧
    (placedA.uninstallAndDisplaceObject "a").1.lookupByLayer 1 [⟨0, 0⟩] =
      [some "a"] := by
  decide

/-- C2 counterexample: with b placed at (0, 1) on GROUND, placing the
1 by 2 entity a at (0, 0) raises Overlap naming a and b, but the buffer
after the failed attempt differs from the buffer before it: the first
footprint cell (0, 0) was already written with a when the conflict at
(0, 1) was discovered, so the failure is not atomic. -/
theorem placeObject_overlap_not_atomic_cex :
    (conflictWorld.placeObject "a" none).2 = .error (.overlapping "a" "b") ∧
    conflictWorld.map 0 1 = none ∧
    (conflictWorld.placeObject "a" none).1.map 0 1 = some "a" := by
  decide

/-- C4 counterexample: the target cell (0, 0) on GROUND is occupied by the
entity's own identity a, and no cell is occupied by a different identity,
yet re-placing a raises an overlap condition naming a twice — occupancy by
the entity's own identity does raise. -/
theorem placeObject_own_identity_raises_cex :
    placedA.lookupByLayer 1 [⟨0, 0⟩] = [some "a"] ∧
    (placedA.placeObject "a" none).2 = .error (.overlapping "a" "a") := by
  decide

/-- C10 counterexample: the entity a is present in the registry of an
initialized grid (installed, never placed) with stored position (9, 0) in a
5 by 5 world; displaceObject raises an out-of-bounds error instead of
returning true, so the claim's unconditional clear fails for a registered
entity whose stored rectangle leaves the world. -/
theorem displaceObject_oob_stored_raises_cex :
    getObj oobWorld.objects "a" = some ⟨"a", 1, ⟨9, 0⟩, ⟨1, 1⟩, true⟩ ∧
    (oobWorld.displaceObject "a").2 = .error (.outOfBounds 9 0) := by
  decide

/-- C2 witness: the partial-write characterization applied at the concrete
scenario of the counterexample — a 1 by 2 placement of a at the origin whose
first cell is free and whose second cell is held by b. -/
theorem placeObject_overlap_incomplete_write_witness :
    conflictWorld.isInitialized = true ∧
    ((conflictWorld.placeObject "a" (some ⟨0, 0⟩)).2 =
        .error (.overlapping "a" "b") ∧
      (∀ r c, (conflictWorld.placeObject "a" (some ⟨0, 0⟩)).1.map r c =
        if ∃ q ∈ [(⟨0, 0⟩ : Coordinate)], q.y = r ∧ q.x + (1 : Int) = c
        then some "a" else conflictWorld.map r c) ∧
      (conflictWorld.placeObject "a" (some ⟨0, 0⟩)).1.objects =
        conflictWorld.objects) :=
  ⟨by decide, placeObject_overlap_incomplete_write conflictWorld
    ⟨"a", 1, ⟨0, 0⟩, ⟨1, 2⟩, true⟩ ⟨0, 0⟩ [⟨0, 0⟩] ⟨0, 1⟩ [] "b"
    (by decide) (by decide) (by decide) (by decide) (by decide) (by decide)⟩

/-- C4 witness: the overlap-iff-slot-occupied characterization applied at
the concrete scenario of the counterexample world. -/
theorem placeObject_overlap_iff_slot_occupied_witness :
    conflictWorld.isInitialized = true ∧
    (((conflictWorld.placeObject "a" (some ⟨0, 0⟩)).2 = .ok (some ⟨0, 0⟩) ↔
        ∀ q ∈ rectCells ⟨0, 0⟩ ⟨1, 2⟩,
          conflictWorld.map q.y (q.x + (1 : Int)) = none) ∧
      ((∃ a b, (conflictWorld.placeObject "a" (some ⟨0, 0⟩)).2 =
          .error (.overlapping a b)) ↔
        ∃ q ∈ rectCells ⟨0, 0⟩ ⟨1, 2⟩,
          conflictWorld.map q.y (q.x + (1 : Int)) ≠ none) ∧
      (∀ a b, (conflictWorld.placeObject "a" (some ⟨0, 0⟩)).2 =
          .error (.overlapping a b) →
        a = "a" ∧ ∃ q ∈ rectCells ⟨0, 0⟩ ⟨1, 2⟩,
          conflictWorld.map q.y (q.x + (1 : Int)) = some b)) :=
  ⟨by decide, placeObject_overlap_iff_slot_occupied conflictWorld
    ⟨"a", 1, ⟨0, 0⟩, ⟨1, 2⟩, true⟩ ⟨0, 0⟩
    (by decide) (by decide) (by decide) (by decide)⟩

/-- C5 witness: the notification rule applied at a concrete single-cell
write — a written to (1, 0) on the OVERGROUND layer of a session world
whose UNDERGROUND layer at that column holds b. -/
theorem setMapCell_cross_layer_notification_witness :
    notifyWorld.isInitialized = true ∧ notifyWorld.hasSession = true ∧
    ((notifyWorld.setMapCell ⟨1, 0⟩ 2 (some "a")).2 = .ok () ∧
      ((∃ M, M < WorldObjectLayerCount ∧ M ≠ 2 ∧
          ∃ e, notifyWorld.map 0 (1 + (M : Int)) = some e ∧ e ≠ "a") →
        ∃ os, (notifyWorld.setMapCell ⟨1, 0⟩ 2 (some "a")).1.notifications =
            notifyWorld.notifications ++ [("a", os)] ∧
          ∀ e, e ∈ os ↔ ∃ M, M < WorldObjectLayerCount ∧ M ≠ 2 ∧
            notifyWorld.map 0 (1 + (M : Int)) = some e) ∧
      ((∀ M, M < WorldObjectLayerCount → M ≠ 2 →
          notifyWorld.map 0 (1 + (M : Int)) = none) →
        (notifyWorld.setMapCell ⟨1, 0⟩ 2 (some "a")).1.notifications =
          notifyWorld.notifications)) :=
  ⟨by decide, by decide, setMapCell_cross_layer_notification notifyWorld
    ⟨1, 0⟩ 2 "a" (by decide) (by decide) (by decide) (by decide) (by decide)⟩

/-- C6 witness: the out-of-bounds move applied at a concrete input — moving
the placed 1 by 1 entity a to (10, 0) in the 10-wide world. -/
theorem moveObject_out_of_bounds_unchanged_witness :
    placedA.isInitialized = true ∧
    placedA.moveObject "a" ⟨10, 0⟩ = (placedA, .ok none) :=
  ⟨by decide, moveObject_out_of_bounds_unchanged placedA "a"
    ⟨"a", 1, ⟨0, 0⟩, ⟨1, 1⟩, true⟩ ⟨10, 0⟩
    (by decide) (by decide) (by decide)⟩

/-- C10 witness: the unconditional clear applied at a concrete input — the
placed 1 by 1 entity a at the origin of the 10 by 10 world. -/
theorem displaceObject_unconditional_clear_witness :
    placedA.isInitialized = true ∧
    ((placedA.displaceObject "a").2 = .ok true ∧
      (∀ q ∈ rectCells ⟨0, 0⟩ ⟨1, 1⟩,
        (placedA.displaceObject "a").1.map q.y (q.x + (1 : Int)) = none) ∧
      (∀ r c, (∀ q ∈ rectCells ⟨0, 0⟩ ⟨1, 1⟩,
          ¬(q.y = r ∧ q.x + (1 : Int) = c)) →
        (placedA.displaceObject "a").1.map r c = placedA.map r c) ∧
      (∀ oid', getObj placedA.objects oid' = none →
        placedA.displaceObject oid' = (placedA, .ok false))) :=
  ⟨by decide, displaceObject_unconditional_clear placedA "a"
    ⟨"a", 1, ⟨0, 0⟩, ⟨1, 1⟩, true⟩
    (by decide) (by decide) (by decide)⟩
